import Mathlib

/-!
Shallow embedding of the eventsys crate (src/slot.rs, src/backend.rs,
src/map.rs, src/query.rs, src/err.rs).

Modelling conventions:
 * Event payload values are modelled as natural numbers; a payload type is
   identified by a natural-number key (standing for its TypeId), and a
   function sizeReq : Nat -> Nat gives each type key its size requirement
   (the size_requirement of the type-erased container).
 * The type-erased container (crate anythingy, an external collaborator) is
   modelled through its stated contract: a value of type t fits a backend of
   capacity N exactly when sizeReq t <= N.
 * VecDeque buffers are Lean lists: push_back appends at the end, push_front
   conses, pop_front removes the head, pop_back removes the last element,
   front is the head.
 * Listener closures are opaque; a listener is modelled by a Nat identifier,
   and invocation is recorded in an output log of (listener id, value) pairs
   produced by handle_event / new_event.
 * Mutex-guarded interior mutability becomes explicit state passing: every
   backend operation returns its result together with the successor state.
-/

namespace Eventsys

/-- Retention policy selector, from SlotType in src/slot.rs. The Cmp and
AllFilter variants carry the user comparison / filter function on payloads. -/
inductive SlotType where
  | all
  | last
  | first
  | cmp (f : Nat → Nat → Bool)
  | allFilter (f : Nat → Bool)
  | max (m : Nat)

/-- Retention policy instance, from Slot in src/slot.rs: each variant wraps
an ordered buffer of stored values (the mutex-guarded VecDeque). -/
inductive Slot where
  | all (buf : List Nat)
  | last (buf : List Nat)
  | first (buf : List Nat)
  | cmp (f : Nat → Nat → Bool) (buf : List Nat)
  | allFilter (f : Nat → Bool) (buf : List Nat)
  | max (m : Nat) (buf : List Nat)

/-- Slot::new from src/slot.rs: a fresh policy instance with an empty
buffer (capacity hints of VecDeque::with_capacity carry no semantics). -/
def Slot.new : SlotType → Slot
  | .all => .all []
  | .last => .last []
  | .first => .first []
  | .cmp f => .cmp f []
  | .allFilter f => .allFilter f []
  | .max m => .max m []

/-- The buffer currently held by a policy instance. -/
def Slot.buf : Slot → List Nat
  | .all b => b
  | .last b => b
  | .first b => b
  | .cmp _ b => b
  | .allFilter _ b => b
  | .max _ b => b

/-- Replace the buffer of a policy instance, keeping the variant and its
comparator / filter / bound. -/
def Slot.setBuf : Slot → List Nat → Slot
  | .all _, b => .all b
  | .last _, b => .last b
  | .first _, b => .first b
  | .cmp f _, b => .cmp f b
  | .allFilter f _, b => .allFilter f b
  | .max m _, b => .max m b

/-- Slot::push from src/slot.rs, lines 72-144, one case per variant:
All appends; Last pops the back then appends; First stores only into an
empty buffer; Cmp replaces the front exactly when the comparison function
approves; AllFilter appends exactly when the filter approves; Max pops the
front when the length already equals the bound, then appends. -/
def Slot.push : Slot → Nat → Slot
  | .all b, v => .all (b ++ [v])
  | .last b, v => .last (b.dropLast ++ [v])
  | .first b, v => .first (if b.isEmpty then [v] else b)
  | .cmp f b, v =>
      .cmp f (match b with
        | [] => [v]
        | c :: rest => if f c v then v :: rest else c :: rest)
  | .allFilter f b, v => .allFilter f (if f v then b ++ [v] else b)
  | .max m b, v => .max m ((if b.length = m then b.tail else b) ++ [v])

/-- Push a whole sequence of values, first element first. -/
def Slot.pushList (s : Slot) (vs : List Nat) : Slot :=
  vs.foldl Slot.push s

/-- Slot::events_clone from src/slot.rs: swap the buffer for an empty one
and hand back the old contents. -/
def Slot.events_clone (s : Slot) : List Nat × Slot :=
  (s.buf, s.setBuf [])

/-- Slot::cleanup from src/slot.rs: reset the buffer to empty. -/
def Slot.cleanup (s : Slot) : Slot :=
  s.setBuf []

/-- Topic Record, from Registered in src/backend.rs: optional retention
policy, listener list in registration order, enabled flag. -/
structure Registered where
  slot : Option Slot
  listener : List Nat
  enabled : Bool

/-- Registered::new from src/backend.rs: no slot, no listeners, enabled. -/
def Registered.new : Registered :=
  ⟨none, [], true⟩

/-- Registered::handle_event from src/backend.rs, lines 391-406: a disabled
record does nothing; an enabled record invokes every listener in list order
(the log), then pushes the event into the slot if one is installed. -/
def Registered.handle_event (r : Registered) (v : Nat) :
    Registered × List (Nat × Nat) :=
  if r.enabled then
    ({ r with slot := r.slot.map (fun sl => sl.push v) },
     r.listener.map (fun l => (l, v)))
  else
    (r, [])

/-- Registered::cleanup from src/backend.rs: drop all listeners and reset
the slot buffer, keeping the slot variant. -/
def Registered.cleanup (r : Registered) : Registered :=
  { r with listener := [], slot := r.slot.map Slot.cleanup }

/-- Registration Table, from RegisteredMap in src/map.rs: an ordered
association list from type key to Topic Record. -/
abbrev RegisteredMap := List (Nat × Registered)

/-- RegisteredMap::get from src/map.rs: first entry with the given key. -/
def RegisteredMap.get (m : RegisteredMap) (k : Nat) : Option Registered :=
  match m with
  | [] => none
  | (k', r) :: rest => if k' = k then some r else RegisteredMap.get rest k

/-- RegisteredMap::insert from src/map.rs: replace the value at the first
entry with the given key, or push a new entry at the end. -/
def RegisteredMap.insert (m : RegisteredMap) (k : Nat) (v : Registered) :
    RegisteredMap :=
  match m with
  | [] => [(k, v)]
  | (k', r) :: rest =>
      if k' = k then (k', v) :: rest
      else (k', r) :: RegisteredMap.insert rest k v

/-- In-place mutation of the record found by RegisteredMap::get /get_mut:
apply f at the first entry with the given key, leave the rest alone. -/
def RegisteredMap.modifyFirst (m : RegisteredMap) (k : Nat)
    (f : Registered → Registered) : RegisteredMap :=
  match m with
  | [] => []
  | (k', r) :: rest =>
      if k' = k then (k', f r) :: rest
      else (k', r) :: RegisteredMap.modifyFirst rest k f

/-- The registered topic keys, in table order. -/
def RegisteredMap.keys (m : RegisteredMap) : List Nat :=
  m.map (·.1)

/-- Error taxonomy, from RawErr in src/err.rs. -/
inductive RawErr where
  | unregisteredEventType
  | eventSize (max : Nat) (is : Nat)
  | registeredWithoutStore
deriving DecidableEq

/-- External collaborator contract (anythingy, spec sec. 6): a payload type
fits the backend exactly when its size requirement is at most capacity N. -/
def fitting (N : Nat) (sizeReq : Nat → Nat) (t : Nat) : Bool :=
  decide (sizeReq t ≤ N)

/-- The backend, from EventBackend in src/backend.rs: owns the Registration
Table. The capacity N and the size function are passed to each operation
(they stand for the const generic EVENT_SIZE and size_requirement). -/
structure EventBackend where
  registered : RegisteredMap

/-- Non-blocking query cursor, from UnblockingQuery in src/query.rs: owns a
detached buffer. -/
structure UnblockingQuery where
  events : List Nat

/-- UnblockingQuery::next from src/query.rs: pop the front of the owned
buffer. -/
def UnblockingQuery.next (q : UnblockingQuery) :
    Option (Nat × UnblockingQuery) :=
  match q.events with
  | [] => none
  | e :: rest => some (e, ⟨rest⟩)

/-- All values a cursor yields, in order, by repeated next. -/
def UnblockingQuery.drain (q : UnblockingQuery) : List Nat :=
  match q with
  | ⟨[]⟩ => []
  | ⟨e :: rest⟩ => e :: UnblockingQuery.drain ⟨rest⟩

/-- EventBackend::register_store from src/backend.rs, lines 53-76: size
check first, then install a fresh slot into the existing record or insert a
new record holding only the slot. -/
def EventBackend.register_store (N : Nat) (sizeReq : Nat → Nat)
    (s : EventBackend) (t : Nat) (typ : SlotType) :
    Except RawErr Unit × EventBackend :=
  if fitting N sizeReq t then
    match s.registered.get t with
    | some _ =>
        (Except.ok (),
         ⟨s.registered.modifyFirst t (fun r => { r with slot := some (Slot.new typ) })⟩)
    | none =>
        (Except.ok (),
         ⟨s.registered.insert t { Registered.new with slot := some (Slot.new typ) }⟩)
  else
    (Except.error (RawErr.eventSize N (sizeReq t)), s)

/-- EventBackend::register_listener from src/backend.rs, lines 97-126: size
check first, then append the listener to the existing record (returning the
new listener count) or insert a new record holding only that listener. -/
def EventBackend.register_listener (N : Nat) (sizeReq : Nat → Nat)
    (s : EventBackend) (t : Nat) (lid : Nat) :
    Except RawErr Nat × EventBackend :=
  if fitting N sizeReq t then
    match s.registered.get t with
    | some r =>
        (Except.ok (r.listener.length + 1),
         ⟨s.registered.modifyFirst t (fun r' => { r' with listener := r'.listener ++ [lid] })⟩)
    | none =>
        (Except.ok 1,
         ⟨s.registered.insert t { Registered.new with listener := [lid] }⟩)
  else
    (Except.error (RawErr.eventSize N (sizeReq t)), s)

/-- EventBackend::new_event from src/backend.rs, lines 146-162: size check
first (failure keeps the value, which travels inside the error), then
lookup; a missing record fails returning the value, a present record
handles the event. The success value is the listener invocation log. -/
def EventBackend.new_event (N : Nat) (sizeReq : Nat → Nat)
    (s : EventBackend) (t : Nat) (v : Nat) :
    Except (RawErr × Nat) (List (Nat × Nat)) × EventBackend :=
  if fitting N sizeReq t then
    match s.registered.get t with
    | some r =>
        (Except.ok (r.handle_event v).2,
         ⟨s.registered.modifyFirst t (fun r' => (r'.handle_event v).1)⟩)
    | none => (Except.error (RawErr.unregisteredEventType, v), s)
  else
    (Except.error (RawErr.eventSize N (sizeReq t), v), s)

/-- EventBackend::query from src/backend.rs, lines 183-203: size check,
then lookup; no record fails UnregisteredEventType, a record without slot
fails RegisteredWithoutStore; otherwise the slot buffer is swapped for an
empty one (Slot::events_clone) and the old contents become the cursor. -/
def EventBackend.query (N : Nat) (sizeReq : Nat → Nat)
    (s : EventBackend) (t : Nat) :
    Except RawErr UnblockingQuery × EventBackend :=
  if fitting N sizeReq t then
    match s.registered.get t with
    | some r =>
        match r.slot with
        | some sl =>
            (Except.ok ⟨sl.buf⟩,
             ⟨s.registered.modifyFirst t
                (fun r' => { r' with slot := r'.slot.map (fun sl' => sl'.setBuf []) })⟩)
        | none => (Except.error RawErr.registeredWithoutStore, s)
    | none => (Except.error RawErr.unregisteredEventType, s)
  else
    (Except.error (RawErr.eventSize N (sizeReq t)), s)

/-- EventBackend::query_blocking from src/backend.rs, lines 227-247, netted
over the blocking cursor's lifetime: the cursor yields the buffer contents
front first and its Drop clears the buffer, so the observable outcome is
the buffer list plus a state whose buffer is empty. Error cases are those
of query. -/
def EventBackend.query_blocking (N : Nat) (sizeReq : Nat → Nat)
    (s : EventBackend) (t : Nat) :
    Except RawErr (List Nat) × EventBackend :=
  if fitting N sizeReq t then
    match s.registered.get t with
    | some r =>
        match r.slot with
        | some sl =>
            (Except.ok sl.buf,
             ⟨s.registered.modifyFirst t
                (fun r' => { r' with slot := r'.slot.map (fun sl' => sl'.setBuf []) })⟩)
        | none => (Except.error RawErr.registeredWithoutStore, s)
    | none => (Except.error RawErr.unregisteredEventType, s)
  else
    (Except.error (RawErr.eventSize N (sizeReq t)), s)

/-- EventBackend::enable from src/backend.rs, lines 312-329: size check,
then lookup; a present record has its enabled flag stored true. -/
def EventBackend.enable (N : Nat) (sizeReq : Nat → Nat)
    (s : EventBackend) (t : Nat) : Except RawErr Unit × EventBackend :=
  if fitting N sizeReq t then
    match s.registered.get t with
    | some _ =>
        (Except.ok (),
         ⟨s.registered.modifyFirst t (fun r => { r with enabled := true })⟩)
    | none => (Except.error RawErr.unregisteredEventType, s)
  else
    (Except.error (RawErr.eventSize N (sizeReq t)), s)

/-- EventBackend::disable from src/backend.rs, lines 263-280: size check,
then lookup; a present record has its enabled flag stored false. -/
def EventBackend.disable (N : Nat) (sizeReq : Nat → Nat)
    (s : EventBackend) (t : Nat) : Except RawErr Unit × EventBackend :=
  if fitting N sizeReq t then
    match s.registered.get t with
    | some _ =>
        (Except.ok (),
         ⟨s.registered.modifyFirst t (fun r => { r with enabled := false })⟩)
    | none => (Except.error RawErr.unregisteredEventType, s)
  else
    (Except.error (RawErr.eventSize N (sizeReq t)), s)

/-- EventBackend::enable_all from src/backend.rs: enable every record. -/
def EventBackend.enable_all (s : EventBackend) : EventBackend :=
  ⟨s.registered.map (fun p => (p.1, { p.2 with enabled := true }))⟩

/-- EventBackend::disable_all from src/backend.rs: disable every record. -/
def EventBackend.disable_all (s : EventBackend) : EventBackend :=
  ⟨s.registered.map (fun p => (p.1, { p.2 with enabled := false }))⟩

/-- EventBackend::cleanup from src/backend.rs, lines 351-355: run
Registered::cleanup on every record. -/
def EventBackend.cleanup (s : EventBackend) : EventBackend :=
  ⟨s.registered.map (fun p => (p.1, p.2.cleanup))⟩

/-- The buffer stored for a topic, when the topic is registered with a
retention policy. -/
def EventBackend.storedEvents (s : EventBackend) (t : Nat) :
    Option (List Nat) :=
  (s.registered.get t).bind (fun r => r.slot.map Slot.buf)

/-! Helper lemmas about the registration table and the slot buffers. -/

theorem Slot.buf_setBuf (s : Slot) (b : List Nat) : (s.setBuf b).buf = b := by
  cases s <;> rfl

theorem Slot.buf_cleanup (s : Slot) : s.cleanup.buf = [] :=
  Slot.buf_setBuf s []

theorem UnblockingQuery.drain_eq : ∀ l : List Nat, UnblockingQuery.drain ⟨l⟩ = l := by
  intro l
  induction l with
  | nil => simp [UnblockingQuery.drain]
  | cons e rest ih => simpa [UnblockingQuery.drain] using ih

theorem RegisteredMap.get_modifyFirst_self (m : RegisteredMap) (k : Nat)
    (f : Registered → Registered) :
    (m.modifyFirst k f).get k = (m.get k).map f := by
  induction m with
  | nil => rfl
  | cons p rest ih =>
      obtain ⟨k', r⟩ := p
      by_cases h : k' = k <;>
        simp [RegisteredMap.modifyFirst, RegisteredMap.get, h, ih]

theorem RegisteredMap.get_modifyFirst_ne (m : RegisteredMap) (k k' : Nat)
    (f : Registered → Registered) (h : k' ≠ k) :
    (m.modifyFirst k f).get k' = m.get k' := by
  induction m with
  | nil => rfl
  | cons p rest ih =>
      obtain ⟨k0, r⟩ := p
      by_cases h0 : k0 = k
      · have hk : ¬ k = k' := fun hh => h hh.symm
        simp [RegisteredMap.modifyFirst, RegisteredMap.get, h0, hk]
      · by_cases h1 : k0 = k'
        · subst h1
          simp [RegisteredMap.modifyFirst, RegisteredMap.get, h0]
        · simp [RegisteredMap.modifyFirst, RegisteredMap.get, h0, h1, ih]

theorem RegisteredMap.keys_modifyFirst (m : RegisteredMap) (k : Nat)
    (f : Registered → Registered) :
    (m.modifyFirst k f).keys = m.keys := by
  induction m with
  | nil => rfl
  | cons p rest ih =>
      obtain ⟨k', r⟩ := p
      by_cases h : k' = k
      · simp [RegisteredMap.modifyFirst, RegisteredMap.keys, h]
      · simp only [RegisteredMap.modifyFirst, if_neg h]
        simp only [RegisteredMap.keys, List.map_cons] at ih ⊢
        rw [ih]

theorem RegisteredMap.modifyFirst_eq_self (m : RegisteredMap) (k : Nat)
    (f : Registered → Registered) :
    ∀ r, m.get k = some r → f r = r → m.modifyFirst k f = m := by
  induction m with
  | nil => intro r h; simp [RegisteredMap.get] at h
  | cons p rest ih =>
      intro r h hf
      obtain ⟨k', r'⟩ := p
      by_cases h0 : k' = k
      · simp [RegisteredMap.get, h0] at h
        subst h
        simp [RegisteredMap.modifyFirst, h0, hf]
      · simp [RegisteredMap.get, h0] at h
        simp [RegisteredMap.modifyFirst, h0, ih r h hf]

theorem RegisteredMap.get_insert_self (m : RegisteredMap) (k : Nat)
    (v : Registered) : (m.insert k v).get k = some v := by
  induction m with
  | nil => simp [RegisteredMap.insert, RegisteredMap.get]
  | cons p rest ih =>
      obtain ⟨k', r⟩ := p
      by_cases h : k' = k <;>
        simp [RegisteredMap.insert, RegisteredMap.get, h, ih]

theorem RegisteredMap.keys_subset_insert (m : RegisteredMap) (k : Nat)
    (v : Registered) : m.keys ⊆ (m.insert k v).keys := by
  induction m with
  | nil => simp [RegisteredMap.keys]
  | cons p rest ih =>
      obtain ⟨k', r⟩ := p
      by_cases h : k' = k
      · simp only [RegisteredMap.insert, if_pos h, RegisteredMap.keys,
          List.map_cons]
        exact fun _ hx => hx
      · intro x hx
        simp only [RegisteredMap.insert, if_neg h]
        simp only [RegisteredMap.keys, List.map_cons, List.mem_cons] at hx ⊢
        rcases hx with hx | hx
        · exact Or.inl hx
        · exact Or.inr (ih hx)

theorem RegisteredMap.get_mapVals (g : Registered → Registered)
    (m : RegisteredMap) (k : Nat) :
    RegisteredMap.get (m.map (fun p => (p.1, g p.2))) k = (m.get k).map g := by
  induction m with
  | nil => rfl
  | cons p rest ih =>
      obtain ⟨k', r⟩ := p
      by_cases h : k' = k <;> simp [RegisteredMap.get, h, ih]

theorem RegisteredMap.keys_mapVals (g : Registered → Registered)
    (m : RegisteredMap) :
    RegisteredMap.keys (m.map (fun p => (p.1, g p.2))) = m.keys := by
  simp [RegisteredMap.keys]

theorem Slot.max_pushList (n : Nat) (hn : 1 ≤ n) (vs : List Nat) :
    ∀ b : List Nat, b.length ≤ n →
      ((Slot.max n b).pushList vs).buf
        = (b ++ vs).drop (b.length + vs.length - n) := by
  induction vs with
  | nil =>
      intro b h
      simp only [Slot.pushList, List.foldl_nil, Slot.buf, List.append_nil,
        List.length_nil, Nat.add_zero]
      have h0 : b.length - n = 0 := by omega
      rw [h0, List.drop_zero]
  | cons v vs ih =>
      intro b h
      have hstep : (Slot.max n b).pushList (v :: vs)
          = (Slot.max n ((if b.length = n then b.tail else b) ++ [v])).pushList vs := rfl
      rw [hstep]
      by_cases hb : b.length = n
      · rcases b with _ | ⟨c, bs⟩
        · exfalso
          simp at hb
          omega
        · rw [if_pos hb]
          have hbs : bs.length + 1 = n := by simpa using hb
          have hlen : ((c :: bs).tail ++ [v]).length ≤ n := by
            simp
            omega
          rw [ih _ hlen]
          simp only [List.tail_cons]
          have h1 : (bs ++ [v]).length + vs.length - n = vs.length := by
            simp
            omega
          have h2 : (c :: bs).length + (v :: vs).length - n = vs.length + 1 := by
            simp
            omega
          rw [h1, h2, List.cons_append, List.drop_succ_cons,
            List.append_assoc, List.singleton_append]
      · have hlt : b.length < n := by omega
        rw [if_neg hb]
        have hlen : (b ++ [v]).length ≤ n := by simp; omega
        rw [ih _ hlen]
        have h1 : (b ++ [v]).length + vs.length - n
            = b.length + (v :: vs).length - n := by
          simp
          omega
        rw [h1, List.append_assoc, List.singleton_append]

theorem Slot.cmp_pushList_len (f : Nat → Nat → Bool) (vs : List Nat) :
    ∀ b : List Nat, b.length ≤ 1 →
      ((Slot.cmp f b).pushList vs).buf.length ≤ 1 := by
  induction vs with
  | nil => intro b h; simpa [Slot.pushList, Slot.buf] using h
  | cons v vs ih =>
      intro b h
      have hstep : (Slot.cmp f b).pushList (v :: vs)
          = ((Slot.cmp f b).push v).pushList vs := rfl
      rw [hstep]
      match b, h with
      | [], _ =>
          simpa [Slot.push] using ih [v] (by simp)
      | [c], _ =>
          by_cases hf : f c v
          · simpa [Slot.push, hf] using ih [v] (by simp)
          · simpa [Slot.push, hf] using ih [c] (by simp)

theorem RegisteredMap.keys_subset_modifyFirst (m : RegisteredMap) (k : Nat)
    (f : Registered → Registered) : m.keys ⊆ (m.modifyFirst k f).keys := by
  rw [RegisteredMap.keys_modifyFirst]
  exact fun _ hx => hx

theorem RegisteredMap.keys_subset_mapVals (g : Registered → Registered)
    (m : RegisteredMap) :
    m.keys ⊆ RegisteredMap.keys (m.map (fun p => (p.1, g p.2))) := by
  rw [RegisteredMap.keys_mapVals]
  exact fun _ hx => hx

theorem register_listener_appends (N : Nat) (sizeReq : Nat → Nat)
    (s : EventBackend) (t lid : Nat) (hfit : fitting N sizeReq t = true) :
    (∀ r0, s.registered.get t = some r0 →
        (EventBackend.register_listener N sizeReq s t lid).2.registered.get t
          = some ⟨r0.slot, r0.listener ++ [lid], r0.enabled⟩) ∧
    (s.registered.get t = none →
        (EventBackend.register_listener N sizeReq s t lid).2.registered.get t
          = some ⟨none, [lid], true⟩) := by
  constructor
  · intro r0 hg
    unfold EventBackend.register_listener
    rw [if_pos hfit]
    simp only [hg]
    show (s.registered.modifyFirst t
        (fun r' => { r' with listener := r'.listener ++ [lid] })).get t = _
    rw [RegisteredMap.get_modifyFirst_self, hg]
    rfl
  · intro hg
    unfold EventBackend.register_listener
    rw [if_pos hfit]
    simp only [hg]
    show (s.registered.insert t { Registered.new with listener := [lid] }).get t = _
    rw [RegisteredMap.get_insert_self]
    rfl

/-! The claims. -/

/-- C1 (amended to bounds n >= 1): for every bound n >= 1 and every push
sequence vs of length M > n into a fresh Max(n) slot, the final buffer is
exactly the most recent n pushed values in their original push order, and
its length is n. -/
theorem max_policy_fifo (n : Nat) (vs : List Nat) (hn : 1 ≤ n)
    (hM : n < vs.length) :
    ((Slot.new (SlotType.max n)).pushList vs).buf = vs.drop (vs.length - n) ∧
    ((Slot.new (SlotType.max n)).pushList vs).buf.length = n := by
  have h := Slot.max_pushList n hn vs [] (by simp)
  have hnew : Slot.new (SlotType.max n) = Slot.max n [] := rfl
  have h1 : ((Slot.new (SlotType.max n)).pushList vs).buf
      = vs.drop (vs.length - n) := by
    rw [hnew, h]
    simp
  refine ⟨h1, ?_⟩
  rw [h1, List.length_drop]
  omega

/-- C1 witness: bound 1, pushes [4, 5]; the buffer ends as [5]. -/
theorem max_policy_fifo_witness :
    1 ≤ 1 ∧ 1 < ([4, 5] : List Nat).length ∧
    (((Slot.new (SlotType.max 1)).pushList [4, 5]).buf
        = [4, 5].drop (([4, 5] : List Nat).length - 1) ∧
     ((Slot.new (SlotType.max 1)).pushList [4, 5]).buf.length = 1) :=
  ⟨by decide, by decide, max_policy_fifo 1 [4, 5] (by decide) (by decide)⟩

/-- C1 counterexample: with bound n = 0 and one push (M = 1 > 0), the
buffer holds the pushed value, not exactly n = 0 values: Slot::push only
evicts when the length already equals the bound, so a Max(0) slot grows
past its bound. -/
theorem max_policy_zero_counterexample :
    ((Slot.new (SlotType.max 0)).pushList [5]).buf = [5] ∧
    ¬ ((Slot.new (SlotType.max 0)).pushList [5]).buf.length = 0 := by
  constructor
  · rfl
  · decide

/-- C3: the Cmp policy stores a push into an empty buffer; into a non-empty
buffer it replaces the sole stored value exactly when the comparison
function approves, otherwise discards the new value; the buffer never
exceeds one value; and with the comparison "new > 2 * current", pushing
0..100 leaves exactly 63 stored. -/
theorem cmp_policy (f : Nat → Nat → Bool) :
    (∀ v, (Slot.cmp f []).push v = Slot.cmp f [v]) ∧
    (∀ c rest v, (Slot.cmp f (c :: rest)).push v
        = Slot.cmp f (if f c v then v :: rest else c :: rest)) ∧
    (∀ vs, ((Slot.cmp f []).pushList vs).buf.length ≤ 1) ∧
    ((Slot.cmp (fun c v => decide (2 * c < v)) []).pushList
        (List.range 100)).buf = [63] := by
  refine ⟨fun v => rfl, fun c rest v => ?_, fun vs => ?_, ?_⟩
  · by_cases hf : f c v <;> simp [Slot.push, hf]
  · exact Slot.cmp_pushList_len f vs [] (by simp)
  · decide

/-- C2: a successful query yields, via its cursor, exactly the events
retained at the moment of the call in FIFO order, leaves the topic buffer
empty, and an immediately following query on the same topic succeeds with
an empty cursor. -/
theorem query_drains (N : Nat) (sizeReq : Nat → Nat) (s s' : EventBackend)
    (t : Nat) (q : UnblockingQuery)
    (h : EventBackend.query N sizeReq s t = (Except.ok q, s')) :
    (∃ buf, s.storedEvents t = some buf ∧ q.drain = buf) ∧
    s'.storedEvents t = some [] ∧
    (∃ q' s'', EventBackend.query N sizeReq s' t = (Except.ok q', s'')
        ∧ q'.drain = []) := by
  unfold EventBackend.query at h
  by_cases hfit : fitting N sizeReq t = true
  case neg => rw [if_neg hfit] at h; simp at h
  rw [if_pos hfit] at h
  cases hg : s.registered.get t with
  | none => simp only [hg] at h; simp at h
  | some r =>
      simp only [hg] at h
      cases hsl : r.slot with
      | none => simp only [hsl] at h; simp at h
      | some sl =>
          simp only [hsl] at h
          simp only [Prod.mk.injEq, Except.ok.injEq] at h
          obtain ⟨hq, hs'⟩ := h
          have hget' : s'.registered.get t
              = some { r with slot := r.slot.map (fun sl' => sl'.setBuf []) } := by
            rw [← hs']
            rw [RegisteredMap.get_modifyFirst_self, hg]
            rfl
          refine ⟨⟨sl.buf, ?_, ?_⟩, ?_, ?_⟩
          · simp [EventBackend.storedEvents, hg, hsl, Slot.buf]
          · rw [← hq]
            exact UnblockingQuery.drain_eq sl.buf
          · simp [EventBackend.storedEvents, hget', hsl, Slot.buf_setBuf]
          · have hq' : EventBackend.query N sizeReq s' t
                = (Except.ok ⟨[]⟩,
                   ⟨s'.registered.modifyFirst t
                      (fun r' => { r' with slot := r'.slot.map (fun sl' => sl'.setBuf []) })⟩) := by
              unfold EventBackend.query
              rw [if_pos hfit, hget']
              simp [hsl, Slot.buf_setBuf]
            exact ⟨⟨[]⟩, _, hq', UnblockingQuery.drain_eq []⟩

/-- C2 witness: one topic registered with the All policy holding [5, 6];
the query yields [5, 6] and empties the buffer. -/
theorem query_drains_witness :
    EventBackend.query 8 (fun _ => 4)
        ⟨[(0, ⟨some (Slot.all [5, 6]), [], true⟩)]⟩ 0
      = (Except.ok ⟨[5, 6]⟩, ⟨[(0, ⟨some (Slot.all []), [], true⟩)]⟩) ∧
    ((∃ buf, EventBackend.storedEvents
          ⟨[(0, ⟨some (Slot.all [5, 6]), [], true⟩)]⟩ 0 = some buf ∧
        UnblockingQuery.drain ⟨[5, 6]⟩ = buf) ∧
     EventBackend.storedEvents ⟨[(0, ⟨some (Slot.all []), [], true⟩)]⟩ 0
        = some [] ∧
     (∃ q' s'', EventBackend.query 8 (fun _ => 4)
          ⟨[(0, ⟨some (Slot.all []), [], true⟩)]⟩ 0 = (Except.ok q', s'')
        ∧ q'.drain = [])) :=
  ⟨rfl, query_drains 8 (fun _ => 4) ⟨[(0, ⟨some (Slot.all [5, 6]), [], true⟩)]⟩
      ⟨[(0, ⟨some (Slot.all []), [], true⟩)]⟩ 0 ⟨[5, 6]⟩ rfl⟩

/-- C4: whenever new_event fails, the error carries the original value back
to the caller and the backend state is unchanged. -/
theorem new_event_failure_returns_value (N : Nat) (sizeReq : Nat → Nat)
    (s : EventBackend) (t v : Nat) (e : RawErr) (w : Nat)
    (h : (EventBackend.new_event N sizeReq s t v).1 = Except.error (e, w)) :
    w = v ∧ (EventBackend.new_event N sizeReq s t v).2 = s := by
  unfold EventBackend.new_event at h ⊢
  by_cases hfit : fitting N sizeReq t = true
  · rw [if_pos hfit] at h ⊢
    cases hg : s.registered.get t with
    | none =>
        simp only [hg, Except.error.injEq, Prod.mk.injEq] at h
        exact ⟨h.2.symm, rfl⟩
    | some r => simp only [hg] at h; simp at h
  · rw [if_neg hfit] at h ⊢
    simp only [Except.error.injEq, Prod.mk.injEq] at h
    exact ⟨h.2.symm, rfl⟩

/-- C4 witness: publishing 7 to an unregistered topic returns 7 inside the
error and leaves the empty backend unchanged. -/
theorem new_event_failure_returns_value_witness :
    (EventBackend.new_event 8 (fun _ => 4) ⟨[]⟩ 0 7).1
        = Except.error (RawErr.unregisteredEventType, 7) ∧
    (7 = 7 ∧ (EventBackend.new_event 8 (fun _ => 4) ⟨[]⟩ 0 7).2 = ⟨[]⟩) :=
  ⟨rfl, new_event_failure_returns_value 8 (fun _ => 4) ⟨[]⟩ 0 7
      RawErr.unregisteredEventType 7 rfl⟩

/-- C5 counterexample: a type of size 8 against capacity 4 has no Topic
Record, yet disable and enable fail with the size error, not with
UnregisteredEventType: the size precondition is checked before the lookup. -/
theorem enable_disable_size_counterexample :
    (⟨[]⟩ : EventBackend).registered.get 0 = none ∧
    (EventBackend.disable 4 (fun _ => 8) ⟨[]⟩ 0).1
        = Except.error (RawErr.eventSize 4 8) ∧
    (EventBackend.enable 4 (fun _ => 8) ⟨[]⟩ 0).1
        = Except.error (RawErr.eventSize 4 8) ∧
    RawErr.eventSize 4 8 ≠ RawErr.unregisteredEventType :=
  ⟨rfl, rfl, rfl, by decide⟩

/-- C5 (amended to types fitting the capacity): for a fitting type with no
Topic Record, enable and disable fail with UnregisteredEventType leaving
the state unchanged; for a fitting type with a record they succeed, set the
record's enabled flag to true respectively false keeping its slot and
listeners, and leave every other topic's record unchanged. -/
theorem enable_disable_spec (N : Nat) (sizeReq : Nat → Nat)
    (s : EventBackend) (t : Nat) (hfit : fitting N sizeReq t = true) :
    (s.registered.get t = none →
        EventBackend.enable N sizeReq s t
            = (Except.error RawErr.unregisteredEventType, s) ∧
        EventBackend.disable N sizeReq s t
            = (Except.error RawErr.unregisteredEventType, s)) ∧
    (∀ r, s.registered.get t = some r →
        (EventBackend.enable N sizeReq s t).1 = Except.ok () ∧
        (EventBackend.enable N sizeReq s t).2.registered.get t
            = some ⟨r.slot, r.listener, true⟩ ∧
        (∀ t', t' ≠ t →
            (EventBackend.enable N sizeReq s t).2.registered.get t'
              = s.registered.get t') ∧
        (EventBackend.disable N sizeReq s t).1 = Except.ok () ∧
        (EventBackend.disable N sizeReq s t).2.registered.get t
            = some ⟨r.slot, r.listener, false⟩ ∧
        (∀ t', t' ≠ t →
            (EventBackend.disable N sizeReq s t).2.registered.get t'
              = s.registered.get t')) := by
  constructor
  · intro hg
    unfold EventBackend.enable EventBackend.disable
    rw [if_pos hfit, if_pos hfit, hg]
    exact ⟨rfl, rfl⟩
  · intro r hg
    unfold EventBackend.enable EventBackend.disable
    rw [if_pos hfit, if_pos hfit, hg]
    refine ⟨rfl, ?_, ?_, rfl, ?_, ?_⟩
    · show (s.registered.modifyFirst t (fun r' => { r' with enabled := true })).get t
        = some ⟨r.slot, r.listener, true⟩
      rw [RegisteredMap.get_modifyFirst_self, hg]
      rfl
    · intro t' ht'
      exact RegisteredMap.get_modifyFirst_ne _ _ _ _ ht'
    · show (s.registered.modifyFirst t (fun r' => { r' with enabled := false })).get t
        = some ⟨r.slot, r.listener, false⟩
      rw [RegisteredMap.get_modifyFirst_self, hg]
      rfl
    · intro t' ht'
      exact RegisteredMap.get_modifyFirst_ne _ _ _ _ ht'

/-- C6: publishing to a disabled registered topic succeeds, invokes no
listener, stores nothing and leaves the backend unchanged; after enable, a
subsequent publish invokes the listeners and the topic's buffer becomes the
pre-disable buffer pushed with the new value alone, so values dropped while
disabled stay dropped. -/
theorem disabled_topic_drop (N : Nat) (sizeReq : Nat → Nat)
    (s : EventBackend) (t : Nat) (r : Registered) (v v' : Nat)
    (hfit : fitting N sizeReq t = true)
    (hg : s.registered.get t = some r)
    (hdis : r.enabled = false) :
    EventBackend.new_event N sizeReq s t v = (Except.ok [], s) ∧
    (EventBackend.enable N sizeReq s t).1 = Except.ok () ∧
    (EventBackend.new_event N sizeReq
        (EventBackend.enable N sizeReq s t).2 t v').1
      = Except.ok (r.listener.map (fun l => (l, v'))) ∧
    (EventBackend.new_event N sizeReq
        (EventBackend.enable N sizeReq s t).2 t v').2.registered.get t
      = some ⟨r.slot.map (fun sl => sl.push v'), r.listener, true⟩ := by
  have hh : r.handle_event v = (r, []) := by
    simp [Registered.handle_event, hdis]
  have hstate : s.registered.modifyFirst t (fun r' => (r'.handle_event v).1)
      = s.registered :=
    RegisteredMap.modifyFirst_eq_self _ _ _ r hg (by rw [hh])
  have hg1 : (EventBackend.enable N sizeReq s t).2.registered.get t
      = some ⟨r.slot, r.listener, true⟩ := by
    unfold EventBackend.enable
    rw [if_pos hfit]
    simp only [hg]
    show (s.registered.modifyFirst t (fun r' => { r' with enabled := true })).get t = _
    rw [RegisteredMap.get_modifyFirst_self, hg]
    rfl
  refine ⟨?_, ?_, ?_, ?_⟩
  · have h1 : EventBackend.new_event N sizeReq s t v
        = (Except.ok (r.handle_event v).2,
           ⟨s.registered.modifyFirst t (fun r' => (r'.handle_event v).1)⟩) := by
      unfold EventBackend.new_event
      rw [if_pos hfit]
      simp only [hg]
    rw [h1, hstate, hh]
  · unfold EventBackend.enable
    rw [if_pos hfit]
    simp only [hg]
  · unfold EventBackend.new_event
    rw [if_pos hfit]
    simp only [hg1]
    simp [Registered.handle_event]
  · unfold EventBackend.new_event
    rw [if_pos hfit]
    simp only [hg1]
    show ((EventBackend.enable N sizeReq s t).2.registered.modifyFirst t
        (fun r' => (r'.handle_event v').1)).get t = _
    rw [RegisteredMap.get_modifyFirst_self, hg1]
    simp [Registered.handle_event]

/-- C6 witness: topic 0 disabled with listener 3 and an All slot; a publish
of 1 is dropped wholesale, then after enable a publish of 2 invokes
listener 3 and stores only 2. -/
theorem disabled_topic_drop_witness :
    fitting 8 (fun _ => 4) 0 = true ∧
    (⟨[(0, ⟨some (Slot.all []), [3], false⟩)]⟩ : EventBackend).registered.get 0
        = some ⟨some (Slot.all []), [3], false⟩ ∧
    (⟨some (Slot.all []), [3], false⟩ : Registered).enabled = false ∧
    EventBackend.new_event 8 (fun _ => 4)
        ⟨[(0, ⟨some (Slot.all []), [3], false⟩)]⟩ 0 1
      = (Except.ok [], ⟨[(0, ⟨some (Slot.all []), [3], false⟩)]⟩) :=
  ⟨by decide, rfl, rfl,
   (disabled_topic_drop 8 (fun _ => 4)
      ⟨[(0, ⟨some (Slot.all []), [3], false⟩)]⟩ 0
      ⟨some (Slot.all []), [3], false⟩ 1 2 (by decide) rfl rfl).1⟩

/-- C7: for a payload type whose size requirement exceeds the capacity,
register_store, register_listener, new_event, query and query_blocking all
return the size error carrying the available capacity and the required
size, and the backend state is unchanged. -/
theorem oversized_type_errors (N : Nat) (sizeReq : Nat → Nat)
    (s : EventBackend) (t v lid : Nat) (typ : SlotType)
    (h : N < sizeReq t) :
    EventBackend.register_store N sizeReq s t typ
        = (Except.error (RawErr.eventSize N (sizeReq t)), s) ∧
    EventBackend.register_listener N sizeReq s t lid
        = (Except.error (RawErr.eventSize N (sizeReq t)), s) ∧
    EventBackend.new_event N sizeReq s t v
        = (Except.error (RawErr.eventSize N (sizeReq t), v), s) ∧
    EventBackend.query N sizeReq s t
        = (Except.error (RawErr.eventSize N (sizeReq t)), s) ∧
    EventBackend.query_blocking N sizeReq s t
        = (Except.error (RawErr.eventSize N (sizeReq t)), s) := by
  have hf' : ¬ (fitting N sizeReq t = true) := by
    simp [fitting]
    omega
  unfold EventBackend.register_store EventBackend.register_listener
    EventBackend.new_event EventBackend.query EventBackend.query_blocking
  rw [if_neg hf', if_neg hf', if_neg hf', if_neg hf', if_neg hf']
  exact ⟨rfl, rfl, rfl, rfl, rfl⟩

/-- C7 witness: size 8 against capacity 4 on the empty backend; every
entry point reports the size error 4 versus 8 and changes nothing. -/
theorem oversized_type_errors_witness :
    4 < 8 ∧
    EventBackend.register_store 4 (fun _ => 8) ⟨[]⟩ 0 SlotType.all
        = (Except.error (RawErr.eventSize 4 8), ⟨[]⟩) ∧
    EventBackend.register_listener 4 (fun _ => 8) ⟨[]⟩ 0 2
        = (Except.error (RawErr.eventSize 4 8), ⟨[]⟩) ∧
    EventBackend.new_event 4 (fun _ => 8) ⟨[]⟩ 0 1
        = (Except.error (RawErr.eventSize 4 8, 1), ⟨[]⟩) ∧
    EventBackend.query 4 (fun _ => 8) ⟨[]⟩ 0
        = (Except.error (RawErr.eventSize 4 8), ⟨[]⟩) ∧
    EventBackend.query_blocking 4 (fun _ => 8) ⟨[]⟩ 0
        = (Except.error (RawErr.eventSize 4 8), ⟨[]⟩) :=
  ⟨by decide, oversized_type_errors 4 (fun _ => 8) ⟨[]⟩ 0 1 2 SlotType.all (by decide)⟩

/-- C8: registering listener A then listener B on the same topic puts them
at the end of the listener list in that order, and one publish produces an
invocation log that invokes A immediately before B, after all earlier
registered listeners. -/
theorem listener_registration_order (N : Nat) (sizeReq : Nat → Nat)
    (s s1 s2 : EventBackend) (t A B v : Nat)
    (res1 res2 : Except RawErr Nat) (r : Registered)
    (hfit : fitting N sizeReq t = true)
    (h1 : EventBackend.register_listener N sizeReq s t A = (res1, s1))
    (h2 : EventBackend.register_listener N sizeReq s1 t B = (res2, s2))
    (hr : s2.registered.get t = some r)
    (hen : r.enabled = true) :
    (∃ pre, r.listener = pre ++ [A, B]) ∧
    (∃ pre, (EventBackend.new_event N sizeReq s2 t v).1
        = Except.ok (pre ++ [(A, v), (B, v)])) := by
  have hs1 : s1 = (EventBackend.register_listener N sizeReq s t A).2 :=
    (congrArg Prod.snd h1).symm
  have hs2 : s2 = (EventBackend.register_listener N sizeReq s1 t B).2 :=
    (congrArg Prod.snd h2).symm
  obtain ⟨happ1, hnew1⟩ := register_listener_appends N sizeReq s t A hfit
  obtain ⟨happ2, hnew2⟩ := register_listener_appends N sizeReq s1 t B hfit
  have key : ∃ pre, r.listener = pre ++ [A, B] := by
    cases hg : s.registered.get t with
    | some r0 =>
        have g1 := happ1 r0 hg
        rw [← hs1] at g1
        have g2 := happ2 _ g1
        rw [← hs2] at g2
        refine ⟨r0.listener, ?_⟩
        rw [Option.some.inj (hr.symm.trans g2)]
        simp
    | none =>
        have g1 := hnew1 hg
        rw [← hs1] at g1
        have g2 := happ2 _ g1
        rw [← hs2] at g2
        refine ⟨[], ?_⟩
        rw [Option.some.inj (hr.symm.trans g2)]
        simp
  obtain ⟨pre, hpre⟩ := key
  refine ⟨⟨pre, hpre⟩, ⟨pre.map (fun l => (l, v)), ?_⟩⟩
  unfold EventBackend.new_event
  rw [if_pos hfit]
  simp only [hr]
  simp [Registered.handle_event, hen, hpre]

/-- C8 witness: listeners 7 then 9 registered on the fresh topic 0 of the
empty backend; a publish of 5 invokes 7 then 9 in that order. -/
theorem listener_registration_order_witness :
    fitting 8 (fun _ => 4) 0 = true ∧
    EventBackend.register_listener 8 (fun _ => 4) ⟨[]⟩ 0 7
        = (Except.ok 1, ⟨[(0, ⟨none, [7], true⟩)]⟩) ∧
    EventBackend.register_listener 8 (fun _ => 4) ⟨[(0, ⟨none, [7], true⟩)]⟩ 0 9
        = (Except.ok 2, ⟨[(0, ⟨none, [7, 9], true⟩)]⟩) ∧
    ((∃ pre, ([7, 9] : List Nat) = pre ++ [7, 9]) ∧
     (∃ pre, (EventBackend.new_event 8 (fun _ => 4)
          ⟨[(0, ⟨none, [7, 9], true⟩)]⟩ 0 5).1
        = Except.ok (pre ++ [(7, 5), (9, 5)]))) :=
  ⟨by decide, rfl, rfl,
   listener_registration_order 8 (fun _ => 4) ⟨[]⟩
      ⟨[(0, ⟨none, [7], true⟩)]⟩ ⟨[(0, ⟨none, [7, 9], true⟩)]⟩ 0 7 9 5
      (Except.ok 1) (Except.ok 2) ⟨none, [7, 9], true⟩
      (by decide) rfl rfl rfl rfl⟩

/-- C9: register_store on an already registered topic overwrites only the
record's retention policy; the listener list and enabled flag survive, and
every other topic's record is untouched. -/
theorem register_store_overwrites_slot_only (N : Nat) (sizeReq : Nat → Nat)
    (s : EventBackend) (t : Nat) (typ : SlotType) (r : Registered)
    (hfit : fitting N sizeReq t = true)
    (hg : s.registered.get t = some r) :
    (EventBackend.register_store N sizeReq s t typ).1 = Except.ok () ∧
    (EventBackend.register_store N sizeReq s t typ).2.registered.get t
        = some ⟨some (Slot.new typ), r.listener, r.enabled⟩ ∧
    (∀ t', t' ≠ t →
        (EventBackend.register_store N sizeReq s t typ).2.registered.get t'
          = s.registered.get t') := by
  unfold EventBackend.register_store
  rw [if_pos hfit]
  simp only [hg]
  refine ⟨by trivial, ?_, ?_⟩
  · show (s.registered.modifyFirst t
        (fun r' => { r' with slot := some (Slot.new typ) })).get t = _
    rw [RegisteredMap.get_modifyFirst_self, hg]
    rfl
  · intro t' ht'
    exact RegisteredMap.get_modifyFirst_ne _ _ _ _ ht'

/-- C9 witness: topic 0 holds listener 3 and is disabled; register_store
with the Last policy swaps in the fresh slot and keeps listener and flag,
while topic 1 is untouched. -/
theorem register_store_overwrites_slot_only_witness :
    fitting 8 (fun _ => 4) 0 = true ∧
    (⟨[(0, ⟨some (Slot.all [5]), [3], false⟩), (1, ⟨none, [2], true⟩)]⟩ :
        EventBackend).registered.get 0 = some ⟨some (Slot.all [5]), [3], false⟩ ∧
    ((EventBackend.register_store 8 (fun _ => 4)
        ⟨[(0, ⟨some (Slot.all [5]), [3], false⟩), (1, ⟨none, [2], true⟩)]⟩ 0
        SlotType.last).1 = Except.ok () ∧
     (EventBackend.register_store 8 (fun _ => 4)
        ⟨[(0, ⟨some (Slot.all [5]), [3], false⟩), (1, ⟨none, [2], true⟩)]⟩ 0
        SlotType.last).2.registered.get 0
        = some ⟨some (Slot.new SlotType.last), [3], false⟩ ∧
     (∀ t', t' ≠ 0 →
        (EventBackend.register_store 8 (fun _ => 4)
          ⟨[(0, ⟨some (Slot.all [5]), [3], false⟩), (1, ⟨none, [2], true⟩)]⟩ 0
          SlotType.last).2.registered.get t'
          = RegisteredMap.get
              [(0, ⟨some (Slot.all [5]), [3], false⟩), (1, ⟨none, [2], true⟩)] t')) :=
  ⟨by decide, rfl,
   register_store_overwrites_slot_only 8 (fun _ => 4)
      ⟨[(0, ⟨some (Slot.all [5]), [3], false⟩), (1, ⟨none, [2], true⟩)]⟩ 0
      SlotType.last ⟨some (Slot.all [5]), [3], false⟩ (by decide) rfl⟩

/-- C5 witness: on a backend holding one record for topic 0, disable flips
the flag to false; the unregistered branch is exercised on topic key 0 of
the empty table through the theorem as well. -/
theorem enable_disable_spec_witness :
    fitting 8 (fun _ => 4) 0 = true ∧
    (⟨[(0, ⟨none, [], true⟩)]⟩ : EventBackend).registered.get 0
        = some ⟨none, [], true⟩ ∧
    (EventBackend.disable 8 (fun _ => 4)
        ⟨[(0, ⟨none, [], true⟩)]⟩ 0).2.registered.get 0
      = some ⟨none, [], false⟩ :=
  ⟨by decide, rfl,
   ((enable_disable_spec 8 (fun _ => 4) ⟨[(0, ⟨none, [], true⟩)]⟩ 0
        (by decide)).2 ⟨none, [], true⟩ rfl).2.2.2.2.1⟩

/-- C10: no operation removes a Topic Record (every operation's key set
contains the old keys); cleanup keeps every record with its enabled flag,
empties its listener list and resets its slot buffer while keeping the slot
variant together with its comparator, filter or bound; and a query for a
store-registered topic still succeeds after cleanup, with an empty cursor. -/
theorem no_record_removal_cleanup (N : Nat) (sizeReq : Nat → Nat)
    (s : EventBackend) (t v lid : Nat) (typ : SlotType) :
    (s.registered.keys ⊆
        (EventBackend.register_store N sizeReq s t typ).2.registered.keys) ∧
    (s.registered.keys ⊆
        (EventBackend.register_listener N sizeReq s t lid).2.registered.keys) ∧
    (s.registered.keys ⊆
        (EventBackend.new_event N sizeReq s t v).2.registered.keys) ∧
    (s.registered.keys ⊆
        (EventBackend.query N sizeReq s t).2.registered.keys) ∧
    (s.registered.keys ⊆
        (EventBackend.query_blocking N sizeReq s t).2.registered.keys) ∧
    (s.registered.keys ⊆
        (EventBackend.enable N sizeReq s t).2.registered.keys) ∧
    (s.registered.keys ⊆
        (EventBackend.disable N sizeReq s t).2.registered.keys) ∧
    (s.registered.keys ⊆ (EventBackend.enable_all s).registered.keys) ∧
    (s.registered.keys ⊆ (EventBackend.disable_all s).registered.keys) ∧
    (s.registered.keys ⊆ (EventBackend.cleanup s).registered.keys) ∧
    (∀ t0 r, s.registered.get t0 = some r →
        (EventBackend.cleanup s).registered.get t0
          = some ⟨r.slot.map Slot.cleanup, [], r.enabled⟩) ∧
    ((∀ b, Slot.cleanup (Slot.all b) = Slot.all []) ∧
     (∀ b, Slot.cleanup (Slot.last b) = Slot.last []) ∧
     (∀ b, Slot.cleanup (Slot.first b) = Slot.first []) ∧
     (∀ f b, Slot.cleanup (Slot.cmp f b) = Slot.cmp f []) ∧
     (∀ f b, Slot.cleanup (Slot.allFilter f b) = Slot.allFilter f []) ∧
     (∀ m b, Slot.cleanup (Slot.max m b) = Slot.max m [])) ∧
    (∀ t0 r sl, fitting N sizeReq t0 = true →
        s.registered.get t0 = some r → r.slot = some sl →
        ∃ q s'', EventBackend.query N sizeReq (EventBackend.cleanup s) t0
            = (Except.ok q, s'') ∧ q.drain = []) := by
  refine ⟨?_, ?_, ?_, ?_, ?_, ?_, ?_, ?_, ?_, ?_, ?_, ?_, ?_⟩
  · unfold EventBackend.register_store
    by_cases hfit : fitting N sizeReq t = true
    · rw [if_pos hfit]
      cases hg : s.registered.get t with
      | some r0 =>
          simp only [hg]
          exact RegisteredMap.keys_subset_modifyFirst _ _ _
      | none =>
          simp only [hg]
          exact RegisteredMap.keys_subset_insert _ _ _
    · rw [if_neg hfit]
      exact fun _ hx => hx
  · unfold EventBackend.register_listener
    by_cases hfit : fitting N sizeReq t = true
    · rw [if_pos hfit]
      cases hg : s.registered.get t with
      | some r0 =>
          simp only [hg]
          exact RegisteredMap.keys_subset_modifyFirst _ _ _
      | none =>
          simp only [hg]
          exact RegisteredMap.keys_subset_insert _ _ _
    · rw [if_neg hfit]
      exact fun _ hx => hx
  · unfold EventBackend.new_event
    by_cases hfit : fitting N sizeReq t = true
    · rw [if_pos hfit]
      cases hg : s.registered.get t with
      | some r0 =>
          simp only [hg]
          exact RegisteredMap.keys_subset_modifyFirst _ _ _
      | none =>
          simp only [hg]
          exact fun _ hx => hx
    · rw [if_neg hfit]
      exact fun _ hx => hx
  · unfold EventBackend.query
    by_cases hfit : fitting N sizeReq t = true
    · rw [if_pos hfit]
      cases hg : s.registered.get t with
      | some r0 =>
          simp only [hg]
          cases hsl : r0.slot with
          | some sl =>
              simp only [hsl]
              exact RegisteredMap.keys_subset_modifyFirst _ _ _
          | none =>
              simp only [hsl]
              exact fun _ hx => hx
      | none =>
          simp only [hg]
          exact fun _ hx => hx
    · rw [if_neg hfit]
      exact fun _ hx => hx
  · unfold EventBackend.query_blocking
    by_cases hfit : fitting N sizeReq t = true
    · rw [if_pos hfit]
      cases hg : s.registered.get t with
      | some r0 =>
          simp only [hg]
          cases hsl : r0.slot with
          | some sl =>
              simp only [hsl]
              exact RegisteredMap.keys_subset_modifyFirst _ _ _
          | none =>
              simp only [hsl]
              exact fun _ hx => hx
      | none =>
          simp only [hg]
          exact fun _ hx => hx
    · rw [if_neg hfit]
      exact fun _ hx => hx
  · unfold EventBackend.enable
    by_cases hfit : fitting N sizeReq t = true
    · rw [if_pos hfit]
      cases hg : s.registered.get t with
      | some r0 =>
          simp only [hg]
          exact RegisteredMap.keys_subset_modifyFirst _ _ _
      | none =>
          simp only [hg]
          exact fun _ hx => hx
    · rw [if_neg hfit]
      exact fun _ hx => hx
  · unfold EventBackend.disable
    by_cases hfit : fitting N sizeReq t = true
    · rw [if_pos hfit]
      cases hg : s.registered.get t with
      | some r0 =>
          simp only [hg]
          exact RegisteredMap.keys_subset_modifyFirst _ _ _
      | none =>
          simp only [hg]
          exact fun _ hx => hx
    · rw [if_neg hfit]
      exact fun _ hx => hx
  · exact RegisteredMap.keys_subset_mapVals
      (fun r => { r with enabled := true }) s.registered
  · exact RegisteredMap.keys_subset_mapVals
      (fun r => { r with enabled := false }) s.registered
  · exact RegisteredMap.keys_subset_mapVals Registered.cleanup s.registered
  · intro t0 r hg
    show RegisteredMap.get
        (s.registered.map (fun p => (p.1, Registered.cleanup p.2))) t0 = _
    rw [RegisteredMap.get_mapVals, hg]
    rfl
  · exact ⟨fun b => rfl, fun b => rfl, fun b => rfl,
      fun f b => rfl, fun f b => rfl, fun m b => rfl⟩
  · intro t0 r sl hfit0 hg hsl
    have hgc : (EventBackend.cleanup s).registered.get t0
        = some ⟨r.slot.map Slot.cleanup, [], r.enabled⟩ := by
      show RegisteredMap.get
          (s.registered.map (fun p => (p.1, Registered.cleanup p.2))) t0 = _
      rw [RegisteredMap.get_mapVals, hg]
      rfl
    refine ⟨⟨[]⟩,
      ⟨(EventBackend.cleanup s).registered.modifyFirst t0
        (fun r' => { r' with slot := r'.slot.map (fun sl' => sl'.setBuf []) })⟩,
      ?_, UnblockingQuery.drain_eq []⟩
    unfold EventBackend.query
    rw [if_pos hfit0]
    simp only [hgc]
    simp [hsl, Slot.buf_cleanup]

/-- C10 witness: one topic with a Max(2) slot holding [7] and listener 3;
after cleanup the record survives with variant Max(2), empty buffer, empty
listeners and unchanged flag, and a query still succeeds, empty. -/
theorem no_record_removal_cleanup_witness :
    ((⟨[(0, ⟨some (Slot.max 2 [7]), [3], true⟩)]⟩ : EventBackend).registered.get 0
        = some ⟨some (Slot.max 2 [7]), [3], true⟩) ∧
    ((EventBackend.cleanup
        ⟨[(0, ⟨some (Slot.max 2 [7]), [3], true⟩)]⟩).registered.get 0
        = some ⟨some (Slot.max 2 []), [], true⟩) ∧
    (∃ q s'', EventBackend.query 8 (fun _ => 4)
        (EventBackend.cleanup ⟨[(0, ⟨some (Slot.max 2 [7]), [3], true⟩)]⟩) 0
        = (Except.ok q, s'') ∧ q.drain = []) :=
  ⟨rfl,
   (no_record_removal_cleanup 8 (fun _ => 4)
      ⟨[(0, ⟨some (Slot.max 2 [7]), [3], true⟩)]⟩ 0 1 2
      SlotType.all).2.2.2.2.2.2.2.2.2.2.1 0
      ⟨some (Slot.max 2 [7]), [3], true⟩ rfl,
   (no_record_removal_cleanup 8 (fun _ => 4)
      ⟨[(0, ⟨some (Slot.max 2 [7]), [3], true⟩)]⟩ 0 1 2
      SlotType.all).2.2.2.2.2.2.2.2.2.2.2.2 0
      ⟨some (Slot.max 2 [7]), [3], true⟩ (Slot.max 2 [7]) (by decide) rfl rfl⟩

end Eventsys
